import Mathlib

/-!
# Quantum Book Store: the inventory and the purchase workflow

A shallow embedding of `src/main.cpp` (classes `Book`, `PaperBook`, `EBook`,
`ShowcaseBook`, `ShippingService`, `MailService`, `BookStore`), and what
`BookStore::buyBook` and `BookStore::removeOutdatedBooks` do to the inventory,
return, throw and call.

Modelling conventions.

* `int` is a 32-bit two's-complement integer.  It is embedded as `Int`; every
  arithmetic result of the program is passed through `wrapInt`.  (Signed
  overflow is formally undefined in C++; the embedding takes the
  two's-complement result that the usual targets produce.)
* `double` is embedded as `Double` below: NaN, a signed infinity, or a signed
  finite value `m * 2 ^ e`.
* `vector<Book*> inventory` is embedded as a `List Book` of book values: the
  store is the only owner of each book and no pointer occurs twice.
* `throw runtime_error(msg)` is embedded as `Except.error msg`; the calls to
  the static collaborators `ShippingService::ship` and `MailService::sendEmail`
  are recorded, in order, as a list of `Call`s; the lines written to `cout`
  by `removeOutdatedBooks` are returned as a list of strings.
-/

namespace QuantumBookStore

/-! ## Machine integers -/

/-- Smallest value of a 32-bit `int`. -/
def INT_MIN : Int := -2147483648

/-- Largest value of a 32-bit `int`. -/
def INT_MAX : Int := 2147483647

/-- Reduction of a mathematical integer to the 32-bit two's-complement range. -/
def wrapInt (x : Int) : Int := (x + 2147483648) % 4294967296 - 2147483648

/-- The `int` subtraction `a - b` of the program. -/
def intSub (a b : Int) : Int := wrapInt (a - b)

/-- The value is representable as a 32-bit `int`. -/
def isInt (x : Int) : Prop := INT_MIN ≤ x ∧ x ≤ INT_MAX

instance (x : Int) : Decidable (isInt x) := by unfold isInt; infer_instance

/-! ## Doubles -/

/-- Values of the type `double` (IEEE-754 binary64): not-a-number, a signed
infinity, or the signed finite value `(-1)^neg * m * 2^e`. -/
inductive Double where
  | nan : Double
  | inf (neg : Bool) : Double
  | fin (neg : Bool) (m : Nat) (e : Int) : Double
  deriving DecidableEq, Repr

namespace Double

/-- Division of `m` by `2 ^ k`, rounded to nearest, ties to even. -/
def roundShift (m k : Nat) : Nat :=
  let q := m / 2 ^ k
  let r := m % 2 ^ k
  if 2 * r < 2 ^ k then q
  else if 2 ^ k < 2 * r then q + 1
  else if q % 2 = 0 then q else q + 1

/-- Number of binary digits of `n`, counted with at most `fuel` halvings. -/
def bitLengthAux : Nat → Nat → Nat
  | 0, _ => 0
  | fuel + 1, n => if n = 0 then 0 else bitLengthAux fuel (n / 2) + 1

/-- Number of binary digits of `m` (`m` halvings always suffice). -/
def bitLength (m : Nat) : Nat := bitLengthAux m m

/-- Number of binary digits of `m` beyond the 53 of a binary64 significand. -/
def excessBits (m : Nat) : Nat := bitLength m - 53

/-- Round the exact value `(-1)^neg * m * 2^e` to binary64 (round to nearest,
ties to even; gradual underflow below `2^(-1074)`, overflow to infinity). -/
def round (neg : Bool) (m : Nat) (e : Int) : Double :=
  let k := max (excessBits m) (-1074 - e).toNat
  let m1 := roundShift m k
  let e1 := e + k
  let m2 := if m1 = 2 ^ 53 then 2 ^ 52 else m1
  let e2 := if m1 = 2 ^ 53 then e1 + 1 else e1
  if m2 = 0 then fin neg 0 e
  else if 971 < e2 then
    if m2 * 2 ^ (e2 - 971).toNat < 2 ^ 53 then fin neg (m2 * 2 ^ (e2 - 971).toNat) 971
    else inf neg
  else fin neg m2 e2

/-- The conversion of an `int` to `double`; it is exact. -/
def ofInt (q : Int) : Double := fin (decide (q < 0)) q.natAbs 0

/-- The `double` product `x * y`. -/
def mul : Double → Double → Double
  | nan, _ => nan
  | _, nan => nan
  | inf s, inf t => inf (xor s t)
  | inf s, fin t m _ => if m = 0 then nan else inf (xor s t)
  | fin s m _, inf t => if m = 0 then nan else inf (xor s t)
  | fin s m e, fin t n f => round (xor s t) (m * n) (e + f)

/-- The comparison `x <= 0.0`; false on NaN, true on both zeros. -/
def isNonPos : Double → Bool
  | nan => false
  | inf s => s
  | fin s m _ => s || m == 0

/-- The comparison `x >= 0.0`; false on NaN, true on both zeros. -/
def isNonNeg : Double → Bool
  | nan => false
  | inf s => !s
  | fin s m _ => !s || m == 0

/-- The value is neither NaN nor infinite. -/
def isFinite : Double → Bool
  | fin _ _ _ => true
  | _ => false

end Double

/-! ## The book hierarchy -/

/-- The dynamic type of a `Book` object, with the members the derived class
adds: `Book` itself (the base class is concrete), `PaperBook` with its `stock`,
`EBook` with its `fileType`, `ShowcaseBook`. -/
inductive BookKind where
  | book : BookKind
  | paperBook (stock : Int) : BookKind
  | eBook (fileType : String) : BookKind
  | showcaseBook : BookKind
  deriving DecidableEq, Repr

/-- An object of class `Book` or of one of its derived classes. -/
structure Book where
  ISBN : String
  title : String
  yearPublished : Int
  price : Double
  author : String
  kind : BookKind
  deriving DecidableEq, Repr

namespace Book

/-- Method `Book::isForSale`, overridden by `ShowcaseBook::isForSale`. -/
def isForSale (b : Book) : Bool :=
  match b.kind with
  | .showcaseBook => false
  | _ => true

/-- Method `Book::getISBN`. -/
def getISBN (b : Book) : String := b.ISBN

/-- Method `Book::getTitle`. -/
def getTitle (b : Book) : String := b.title

/-- Method `Book::getPrice`. -/
def getPrice (b : Book) : Double := b.price

/-- Method `Book::getYear`. -/
def getYear (b : Book) : Int := b.yearPublished

/-- Method `Book::hasStock`, overridden by `PaperBook::hasStock`. -/
def hasStock (b : Book) (quantity : Int) : Bool :=
  match b.kind with
  | .paperBook stock => decide (stock ≥ quantity)
  | _ => true

/-- Method `Book::reduceStock`, overridden by `PaperBook::reduceStock`. -/
def reduceStock (b : Book) (quantity : Int) : Book :=
  match b.kind with
  | .paperBook stock => { b with kind := .paperBook (intSub stock quantity) }
  | _ => b

/-- The member `stock` of a `PaperBook`; `none` for the other classes. -/
def stock? (b : Book) : Option Int :=
  match b.kind with
  | .paperBook stock => some stock
  | _ => none

end Book

/-! ## The collaborators -/

/-- A call of one of the two static collaborators, with its arguments. -/
inductive Call where
  | ship (address bookTitle : String) : Call
  | sendEmail (email bookTitle : String) : Call
  deriving DecidableEq, Repr

/-! ## The store -/

/-- The message of the exception thrown for a book that is not for sale. -/
def NotForSale : String := "[Quantum Book Store] ERROR: This book is not for sale."

/-- The message of the exception thrown when the stock does not cover the quantity. -/
def InsufficientStock : String := "[Quantum Book Store] ERROR: Not enough stock available."

/-- The message of the exception thrown for a book that is neither a
`PaperBook` nor an `EBook`. -/
def InvalidBookType : String := "[Quantum Book Store] ERROR: Invalid book type."

/-- The message of the exception thrown when the scan finds no book. -/
def NotFound : String := "[Quantum Book Store] ERROR: Book with this ISBN not found."

/-- Method `BookStore::addBook`: `inventory.push_back(book)`. -/
def addBook (inventory : List Book) (book : Book) : List Book :=
  inventory ++ [book]

/-- The constant `CURRENT_YEAR` local to `BookStore::removeOutdatedBooks`. -/
def CURRENT_YEAR : Int := 2025

/-- What `BookStore::removeOutdatedBooks` leaves behind: the new inventory and
the lines written to `cout`. -/
structure RemoveOutcome where
  inventory : List Book
  output : List String
  deriving DecidableEq, Repr

/-- The line written to `cout` for a removed book of the given title. -/
def removalLine (title : String) : String :=
  "[Quantum Book Store] Removing outdated book: " ++ title

/-- The loop of `BookStore::removeOutdatedBooks` from the book at the head of
`books`, with the `updatedInventory` and the output accumulated so far. -/
def removeOutdatedLoop (maxAgeInYears : Int) :
    List Book → List Book → List String → RemoveOutcome
  | [], updatedInventory, out => ⟨updatedInventory, out⟩
  | book :: rest, updatedInventory, out =>
    let bookAge := intSub CURRENT_YEAR book.getYear
    if bookAge ≤ maxAgeInYears then
      removeOutdatedLoop maxAgeInYears rest (updatedInventory ++ [book]) out
    else
      removeOutdatedLoop maxAgeInYears rest updatedInventory
        (out ++ [removalLine book.getTitle])

/-- Method `BookStore::removeOutdatedBooks`: the loop from the head of the inventory, with
an empty `updatedInventory`; its result becomes the inventory. -/
def removeOutdatedBooks (inventory : List Book) (maxAgeInYears : Int) : RemoveOutcome :=
  removeOutdatedLoop maxAgeInYears inventory [] []

/-- What a call of `BookStore::buyBook` leaves behind: the returned amount or
the message of the exception thrown, the inventory afterwards, and the calls
made to the collaborators, in order. -/
structure BuyOutcome where
  result : Except String Double
  inventory : List Book
  calls : List Call

/-- Method `BookStore::buyBook`: the scan of the inventory from its head. -/
def buyBook : List Book → String → Int → String → String → BuyOutcome
  | [], _, _, _, _ => ⟨.error NotFound, [], []⟩
  | book :: rest, ISBN, quantity, email, address =>
    if book.getISBN = ISBN then
      if !book.isForSale then
        ⟨.error NotForSale, book :: rest, []⟩
      else
        match book.kind with
        | .paperBook _ =>
          if !book.hasStock quantity then
            ⟨.error InsufficientStock, book :: rest, []⟩
          else
            ⟨.ok ((book.reduceStock quantity).getPrice.mul (Double.ofInt quantity)),
              book.reduceStock quantity :: rest,
              [Call.ship address (book.reduceStock quantity).getTitle]⟩
        | .eBook _ =>
          ⟨.ok (book.getPrice.mul (Double.ofInt quantity)), book :: rest,
            [Call.sendEmail email book.getTitle]⟩
        | _ => ⟨.error InvalidBookType, book :: rest, []⟩
    else
      let r := buyBook rest ISBN quantity email address
      ⟨r.result, book :: r.inventory, r.calls⟩

/-! ## The specification of `removeOutdatedBooks` -/

/-- The age `currentYear - year` of a book, an `int` subtraction. -/
def ageIn (currentYear : Int) (b : Book) : Int := intSub currentYear b.getYear

/-- After the specification: the books that `removeOutdatedBooks(maxAgeYears,
currentYear)` keeps, those with `currentYear - year <= maxAgeYears`, in their
order. -/
def specRetained (maxAgeYears currentYear : Int) (inv : List Book) : List Book :=
  inv.filter (fun b => decide (ageIn currentYear b ≤ maxAgeYears))

/-- After the specification: the titles that `removeOutdatedBooks(maxAgeYears,
currentYear)` reports, those of the books with `currentYear - year >
maxAgeYears`, in their order. -/
def specRemovedTitles (maxAgeYears currentYear : Int) (inv : List Book) : List String :=
  (inv.filter (fun b => decide (ageIn currentYear b > maxAgeYears))).map Book.getTitle

/-! ## The stock invariant -/

/-- The book is not a `PaperBook` of negative stock: `stock >= 0` for a
`PaperBook`, nothing asked of the other classes. -/
def Book.stockNonneg (b : Book) : Bool :=
  match b.kind with
  | .paperBook stock => decide (0 ≤ stock)
  | _ => true

/-- Every `PaperBook` of the inventory has a stock `>= 0`. -/
def StockNonneg (inventory : List Book) : Prop := ∀ b ∈ inventory, b.stockNonneg = true

instance (inventory : List Book) : Decidable (StockNonneg inventory) := by
  unfold StockNonneg; infer_instance

/-! ## The sample inventory of `QuantumBookstoreFullTest::runTest` -/

/-- The book `new PaperBook("123", "bule elephant ", 2020, 35.0, "Ahmed Morad", 5)`. -/
def samplePaperBook : Book :=
  ⟨"123", "bule elephant ", 2020, .fin false 35 0, "Ahmed Morad", .paperBook 5⟩

/-- The book `new EBook("456", "The Old Man And The Sea", 2021, 25.0, "wael hossam", ".pdf")`. -/
def sampleEBook : Book :=
  ⟨"456", "The Old Man And The Sea", 2021, .fin false 25 0, "wael hossam", .eBook ".pdf"⟩

/-- The book `new ShowcaseBook("789", "Sample Demo Book", 2019, 0.0, "Admin")`. -/
def sampleShowcaseBook : Book :=
  ⟨"789", "Sample Demo Book", 2019, .fin false 0 0, "Admin", .showcaseBook⟩

/-- A second paper book with the ISBN "123" of `samplePaperBook`, one copy in stock. -/
def sampleDuplicate : Book :=
  ⟨"123", "blue elephant, second printing", 2024, .fin false 40 0, "Ahmed Morad", .paperBook 1⟩

/-- A paper book entered with a negative stock (`new PaperBook(..., -5)`; the
admin menu reads the stock with `getValidIntInput`, which accepts any `int`). -/
def negativeStockBook : Book :=
  ⟨"123", "bule elephant ", 2020, .fin false 35 0, "Ahmed Morad", .paperBook (-5)⟩

/-- An e-book entered with an infinite price:
`new EBook("456", "The Old Man And The Sea", 2021, INFINITY, "wael hossam", ".pdf")`. -/
def infinitePriceEBook : Book :=
  ⟨"456", "The Old Man And The Sea", 2021, .inf false, "wael hossam", .eBook ".pdf"⟩

/-- An object of the base class: `new Book("000", "Plain", 2022, 10.0, "Nobody")`. -/
def plainBook : Book :=
  ⟨"000", "Plain", 2022, .fin false 10 0, "Nobody", .book⟩

/-! ## Machine integers: facts -/

/-- On a representable value `wrapInt` is the identity. -/
theorem wrapInt_of_isInt (x : Int) (h : isInt x) : wrapInt x = x := by
  unfold isInt INT_MIN INT_MAX at h
  unfold wrapInt
  omega

/-- The result of `wrapInt` is representable. -/
theorem isInt_wrapInt (x : Int) : isInt (wrapInt x) := by
  unfold isInt INT_MIN INT_MAX wrapInt
  omega

/-- Without overflow the `int` difference of a stock and a quantity it covers is
not negative. -/
theorem intSub_nonneg (stock quantity : Int) (hq : quantity ≤ stock)
    (hmax : stock - quantity ≤ INT_MAX) : 0 ≤ intSub stock quantity := by
  unfold INT_MAX at hmax
  unfold intSub wrapInt
  omega

/-- With overflow the `int` difference of a stock and a quantity it covers is
negative. -/
theorem intSub_neg_of_overflow (stock quantity : Int) (hs : isInt stock) (hqi : isInt quantity)
    (hmax : INT_MAX < stock - quantity) : intSub stock quantity < 0 := by
  unfold isInt INT_MIN INT_MAX at *
  unfold intSub wrapInt
  omega

/-! ## The scan of `buyBook` -/

/-- Books whose ISBN differs from the one asked for are stepped over: the scan
behaves on `pre ++ l` as on `l`, and hands `pre` back untouched. -/
theorem buyBook_append_of_no_match (pre l : List Book) (ISBN : String) (quantity : Int)
    (email address : String) (hpre : ∀ x ∈ pre, x.getISBN ≠ ISBN) :
    (buyBook (pre ++ l) ISBN quantity email address).result
        = (buyBook l ISBN quantity email address).result ∧
    (buyBook (pre ++ l) ISBN quantity email address).inventory
        = pre ++ (buyBook l ISBN quantity email address).inventory ∧
    (buyBook (pre ++ l) ISBN quantity email address).calls
        = (buyBook l ISBN quantity email address).calls := by
  induction pre with
  | nil => simp
  | cons x xs ih =>
    have hx : x.getISBN ≠ ISBN := hpre x (List.mem_cons_self _ _)
    have hxs : ∀ y ∈ xs, y.getISBN ≠ ISBN := fun y hy => hpre y (List.mem_cons_of_mem _ hy)
    obtain ⟨h1, h2, h3⟩ := ih hxs
    simp [buyBook, hx, h1, h2, h3]

/-- Without any book of the ISBN asked for, the scan runs to the end. -/
theorem buyBook_of_no_match (inv : List Book) (ISBN : String) (quantity : Int)
    (email address : String) (h : ∀ x ∈ inv, x.getISBN ≠ ISBN) :
    (buyBook inv ISBN quantity email address).result = .error NotFound ∧
    (buyBook inv ISBN quantity email address).inventory = inv ∧
    (buyBook inv ISBN quantity email address).calls = [] := by
  have := buyBook_append_of_no_match inv [] ISBN quantity email address h
  simpa [buyBook] using this

/-- Every inventory either has no book of the ISBN asked for, or splits at the
first such book. -/
theorem exists_first_match (inv : List Book) (ISBN : String) :
    (∀ x ∈ inv, x.getISBN ≠ ISBN) ∨
    ∃ pre b post, inv = pre ++ b :: post ∧ (∀ x ∈ pre, x.getISBN ≠ ISBN) ∧ b.getISBN = ISBN := by
  induction inv with
  | nil => left; simp
  | cons a l ih =>
    by_cases ha : a.getISBN = ISBN
    · right; exact ⟨[], a, l, by simp, by simp, ha⟩
    · rcases ih with h | ⟨pre, b, post, h1, h2, h3⟩
      · left
        intro x hx
        rcases List.mem_cons.mp hx with rfl | hx
        · exact ha
        · exact h x hx
      · right
        refine ⟨a :: pre, b, post, by simp [h1], ?_, h3⟩
        intro x hx
        rcases List.mem_cons.mp hx with rfl | hx
        · exact ha
        · exact h2 x hx

/-- What `buyBook` does at a book of the ISBN asked for, by the book's class. -/
theorem buyBook_cons_match (b : Book) (post : List Book) (ISBN : String) (quantity : Int)
    (email address : String) (hb : b.getISBN = ISBN) :
    (b.kind = .showcaseBook ∧
      (buyBook (b :: post) ISBN quantity email address).result = .error NotForSale ∧
      (buyBook (b :: post) ISBN quantity email address).inventory = b :: post ∧
      (buyBook (b :: post) ISBN quantity email address).calls = []) ∨
    (b.kind = .book ∧
      (buyBook (b :: post) ISBN quantity email address).result = .error InvalidBookType ∧
      (buyBook (b :: post) ISBN quantity email address).inventory = b :: post ∧
      (buyBook (b :: post) ISBN quantity email address).calls = []) ∨
    (∃ fileType, b.kind = .eBook fileType ∧
      (buyBook (b :: post) ISBN quantity email address).result
          = .ok (b.getPrice.mul (Double.ofInt quantity)) ∧
      (buyBook (b :: post) ISBN quantity email address).inventory = b :: post ∧
      (buyBook (b :: post) ISBN quantity email address).calls
          = [Call.sendEmail email b.getTitle]) ∨
    (∃ stock, b.kind = .paperBook stock ∧ quantity > stock ∧
      (buyBook (b :: post) ISBN quantity email address).result = .error InsufficientStock ∧
      (buyBook (b :: post) ISBN quantity email address).inventory = b :: post ∧
      (buyBook (b :: post) ISBN quantity email address).calls = []) ∨
    (∃ stock, b.kind = .paperBook stock ∧ quantity ≤ stock ∧
      (buyBook (b :: post) ISBN quantity email address).result
          = .ok (b.getPrice.mul (Double.ofInt quantity)) ∧
      (buyBook (b :: post) ISBN quantity email address).inventory
          = { b with kind := .paperBook (intSub stock quantity) } :: post ∧
      (buyBook (b :: post) ISBN quantity email address).calls
          = [Call.ship address b.getTitle]) := by
  cases hkind : b.kind with
  | showcaseBook => left; simp [buyBook, hb, hkind, Book.isForSale]
  | book => right; left; simp [buyBook, hb, hkind, Book.isForSale]
  | eBook fileType => right; right; left; simp [buyBook, hb, hkind, Book.isForSale]
  | paperBook stock =>
    by_cases hq : quantity ≤ stock
    · right; right; right; right
      simp [buyBook, hb, hkind, Book.isForSale, Book.hasStock, Book.reduceStock, hq,
        Book.getPrice, Book.getTitle]
    · right; right; right; left
      have hgt : stock < quantity := by omega
      simp [buyBook, hb, hkind, Book.isForSale, Book.hasStock, hq, hgt]

/-- At a book of the ISBN asked for, the books behind it play no part: result
and calls are those of the purchase in the store holding that book alone, and
the book is handed back with at most its stock changed. -/
theorem buyBook_cons_match_post (b : Book) (post : List Book) (ISBN : String) (quantity : Int)
    (email address : String) (hb : b.getISBN = ISBN) :
    (buyBook (b :: post) ISBN quantity email address).result
      = (buyBook [b] ISBN quantity email address).result ∧
    (buyBook (b :: post) ISBN quantity email address).calls
      = (buyBook [b] ISBN quantity email address).calls ∧
    ∃ b1, (buyBook [b] ISBN quantity email address).inventory = [b1] ∧
      (buyBook (b :: post) ISBN quantity email address).inventory = b1 :: post ∧
      b1.ISBN = b.ISBN ∧ b1.title = b.title ∧ b1.yearPublished = b.yearPublished ∧
      b1.price = b.price ∧ b1.author = b.author ∧
      (b1 = b ∨ ∃ s, b.kind = .paperBook s ∧ b1.kind = .paperBook (intSub s quantity)) := by
  cases hkind : b.kind with
  | showcaseBook =>
    refine ⟨?_, ?_, b, ?_, ?_, rfl, rfl, rfl, rfl, rfl, Or.inl rfl⟩ <;>
      simp [buyBook, hb, hkind, Book.isForSale]
  | book =>
    refine ⟨?_, ?_, b, ?_, ?_, rfl, rfl, rfl, rfl, rfl, Or.inl rfl⟩ <;>
      simp [buyBook, hb, hkind, Book.isForSale]
  | eBook fileType =>
    refine ⟨?_, ?_, b, ?_, ?_, rfl, rfl, rfl, rfl, rfl, Or.inl rfl⟩ <;>
      simp [buyBook, hb, hkind, Book.isForSale]
  | paperBook stock =>
    by_cases hq : quantity ≤ stock
    · refine ⟨?_, ?_, { b with kind := .paperBook (intSub stock quantity) }, ?_, ?_,
        rfl, rfl, rfl, rfl, rfl, Or.inr ⟨stock, rfl, rfl⟩⟩ <;>
        simp [buyBook, hb, hkind, Book.isForSale, Book.hasStock, Book.reduceStock, hq]
    · have hgt : stock < quantity := by omega
      refine ⟨?_, ?_, b, ?_, ?_, rfl, rfl, rfl, rfl, rfl, Or.inl rfl⟩ <;>
        simp [buyBook, hb, hkind, Book.isForSale, Book.hasStock, hq, hgt]

/-- The inventory after `buyBook` is the inventory before, unless the call
returns at a `PaperBook` that is the first book of the ISBN asked for and whose
stock covers the quantity: then that book's stock, and nothing else, is
replaced by the `int` difference. -/
theorem buyBook_inventory_cases (inv : List Book) (ISBN : String) (quantity : Int)
    (email address : String) :
    ((buyBook inv ISBN quantity email address).inventory = inv) ∨
    ∃ pre b post stock, inv = pre ++ b :: post ∧ (∀ x ∈ pre, x.getISBN ≠ ISBN) ∧
      b.getISBN = ISBN ∧ b.kind = .paperBook stock ∧ quantity ≤ stock ∧
      (buyBook inv ISBN quantity email address).result
        = .ok (b.getPrice.mul (Double.ofInt quantity)) ∧
      (buyBook inv ISBN quantity email address).inventory
        = pre ++ { b with kind := .paperBook (intSub stock quantity) } :: post := by
  rcases exists_first_match inv ISBN with h | ⟨pre, b, post, hinv, hpre, hb⟩
  · left
    exact (buyBook_of_no_match inv ISBN quantity email address h).2.1
  · obtain ⟨h1, h2, -⟩ :=
      buyBook_append_of_no_match pre (b :: post) ISBN quantity email address hpre
    rcases buyBook_cons_match b post ISBN quantity email address hb with
      ⟨-, -, hi, -⟩ | ⟨-, -, hi, -⟩ | ⟨_, -, -, hi, -⟩ | ⟨_, -, -, -, hi, -⟩ |
      ⟨stock, hk, hq, hr, hi, -⟩
    · left; rw [hinv, h2, hi]
    · left; rw [hinv, h2, hi]
    · left; rw [hinv, h2, hi]
    · left; rw [hinv, h2, hi]
    · right
      refine ⟨pre, b, post, stock, hinv, hpre, hb, hk, hq, ?_, ?_⟩
      · rw [hinv, h1, hr]
      · rw [hinv, h2, hi]

/-- The four messages are pairwise different. -/
theorem messages_distinct :
    NotFound ≠ NotForSale ∧ NotFound ≠ InsufficientStock ∧ NotFound ≠ InvalidBookType ∧
    NotForSale ≠ InsufficientStock ∧ NotForSale ≠ InvalidBookType ∧
    InsufficientStock ≠ InvalidBookType := by decide

/-! ## The loop of `removeOutdatedBooks` -/

/-- The loop appends to `updatedInventory` the books it keeps and to the output
one line for each book it drops, both in the order of the scan. -/
theorem removeOutdatedLoop_eq (maxAgeInYears : Int) (books acc : List Book) (out : List String) :
    removeOutdatedLoop maxAgeInYears books acc out =
      ⟨acc ++ specRetained maxAgeInYears CURRENT_YEAR books,
        out ++ (specRemovedTitles maxAgeInYears CURRENT_YEAR books).map removalLine⟩ := by
  induction books generalizing acc out with
  | nil => simp [removeOutdatedLoop, specRetained, specRemovedTitles]
  | cons b l ih =>
    by_cases h : intSub CURRENT_YEAR b.getYear ≤ maxAgeInYears
    · have h2 : ¬ maxAgeInYears < intSub CURRENT_YEAR b.getYear := by omega
      simp [removeOutdatedLoop, h, h2, ih, specRetained, specRemovedTitles, ageIn]
    · have h2 : maxAgeInYears < intSub CURRENT_YEAR b.getYear := by omega
      simp [removeOutdatedLoop, h, h2, ih, specRetained, specRemovedTitles, ageIn, removalLine]

/-! ## Doubles: the sign of a product -/

namespace Double

/-- Rounding zero gives zero. -/
theorem roundShift_zero (k : Nat) : roundShift 0 k = 0 := by
  simp [roundShift]

/-- Rounding keeps the sign: the result is the infinity or a finite value of
the sign given. -/
theorem round_sign (neg : Bool) (m : Nat) (e : Int) :
    round neg m e = inf neg ∨ ∃ m1 e1, round neg m e = fin neg m1 e1 := by
  unfold round
  simp only
  split_ifs <;> first | (left; rfl) | (right; exact ⟨_, _, rfl⟩)

/-- Rounding an exact zero gives the zero of the sign given. -/
theorem round_zero (neg : Bool) (e : Int) : round neg 0 e = fin neg 0 e := by
  simp [round, roundShift_zero]

/-- A finite `double` that compares `>= 0`, multiplied by an `int` that is
`<= 0`, compares `<= 0`. -/
theorem mul_ofInt_isNonPos (p : Double) (q : Int) (hfin : p.isFinite = true)
    (hnn : p.isNonNeg = true) (hq : q ≤ 0) : (p.mul (ofInt q)).isNonPos = true := by
  cases p with
  | nan => simp [isFinite] at hfin
  | inf s => simp [isFinite] at hfin
  | fin s m e =>
    simp only [ofInt, mul]
    by_cases hm : m = 0
    · subst hm
      simp [round_zero, isNonPos]
    · by_cases hq0 : q = 0
      · subst hq0
        simp [round_zero, isNonPos]
      · have hs : s = false := by
          simp [isNonNeg, hm] at hnn
          exact hnn
        have hneg : q < 0 := by omega
        subst hs
        rcases round_sign (xor false (decide (q < 0))) (m * q.natAbs) (e + 0) with h | ⟨m1, e1, h⟩
        · rw [h]; simp [isNonPos, hneg]
        · rw [h]; simp [isNonPos, hneg]

/-- The product of the positive infinity and the `int` zero is NaN, which does
not compare `<= 0`. -/
theorem inf_mul_zero : (inf false).isNonNeg = true ∧ (inf false).mul (ofInt 0) = nan ∧
    ((inf false).mul (ofInt 0)).isNonPos = false := by
  decide

end Double

/-! ## The scenario of `QuantumBookstoreFullTest::runTest` -/

/-- The run of `runTest`: two copies of "123" cost 70.0, leave a stock of 3 and
are shipped; one copy of "456" costs 25.0 and is mailed; "999" is not found;
`removeOutdatedBooks(3)` then empties the inventory (ages 5, 4 and 6). -/
theorem runTest_scenario :
    (buyBook [samplePaperBook, sampleEBook, sampleShowcaseBook] "123" 2 "customer@mail.com"
        "123 Main St").result = .ok (.fin false 70 0) ∧
    (buyBook [samplePaperBook, sampleEBook, sampleShowcaseBook] "123" 2 "customer@mail.com"
        "123 Main St").inventory
      = [{ samplePaperBook with kind := .paperBook 3 }, sampleEBook, sampleShowcaseBook] ∧
    (buyBook [samplePaperBook, sampleEBook, sampleShowcaseBook] "123" 2 "customer@mail.com"
        "123 Main St").calls = [Call.ship "123 Main St" "bule elephant "] ∧
    (buyBook [{ samplePaperBook with kind := .paperBook 3 }, sampleEBook, sampleShowcaseBook]
        "456" 1 "customer@mail.com" "").result = .ok (.fin false 25 0) ∧
    (buyBook [{ samplePaperBook with kind := .paperBook 3 }, sampleEBook, sampleShowcaseBook]
        "456" 1 "customer@mail.com" "").calls
      = [Call.sendEmail "customer@mail.com" "The Old Man And The Sea"] ∧
    (buyBook [{ samplePaperBook with kind := .paperBook 3 }, sampleEBook, sampleShowcaseBook]
        "999" 1 "customer@mail.com" "Nowhere").result = .error NotFound ∧
    (removeOutdatedBooks
        [{ samplePaperBook with kind := .paperBook 3 }, sampleEBook, sampleShowcaseBook]
        3).inventory = [] := by
  refine ⟨rfl, by decide, by decide, rfl, by decide, rfl, by decide⟩

/-! ## Purchases -/

/-- C1, as stated, fails.  The paper book "123" of the sample inventory has a
stock of 5, and `INT_MIN <= 5`: the purchase of `INT_MIN` copies passes
`hasStock`, returns and ships, but `stock -= quantity` does not leave
`5 - (-2147483648) = 2147483653`, which is no `int`: the stock afterwards is
`-2147483643`. -/
theorem buyBook_paperBook_stock_wraps :
    samplePaperBook.getISBN = "123" ∧ samplePaperBook.kind = .paperBook 5 ∧
    isInt (-2147483648) ∧ (-2147483648 : Int) ≤ 5 ∧
    (buyBook ([] ++ samplePaperBook :: [sampleEBook, sampleShowcaseBook]) "123" (-2147483648)
        "customer@mail.com" "123 Main St").inventory[0]?.bind Book.stock?
      = some (-2147483643) ∧
    (buyBook ([] ++ samplePaperBook :: [sampleEBook, sampleShowcaseBook]) "123" (-2147483648)
        "customer@mail.com" "123 Main St").inventory[0]?.bind Book.stock?
      ≠ some (5 - (-2147483648)) ∧
    (buyBook ([] ++ samplePaperBook :: [sampleEBook, sampleShowcaseBook]) "123" (-2147483648)
        "customer@mail.com" "123 Main St").inventory
      ≠ [] ++ { samplePaperBook with kind := .paperBook (5 - (-2147483648)) }
          :: [sampleEBook, sampleShowcaseBook] := by
  decide

/-- C1, amended.  If the first book of the inventory with the ISBN asked for is
a `PaperBook` whose stock covers the quantity, `buyBook` returns
`price * quantity`, calls `ShippingService::ship` once, with the address and
the book's title, and `MailService::sendEmail` never, and leaves every book as
it was except for this book's stock; and if `stock - quantity` does not exceed
`INT_MAX` (as for every quantity `>= 0` at an `int` stock), this book's stock
afterwards is `stock - quantity`. -/
theorem buyBook_paperBook_in_stock (pre post : List Book) (b : Book) (ISBN : String)
    (stock quantity : Int) (email address : String)
    (hpre : ∀ x ∈ pre, x.getISBN ≠ ISBN) (hb : b.getISBN = ISBN)
    (hkind : b.kind = .paperBook stock) (hq : quantity ≤ stock) :
    (buyBook (pre ++ b :: post) ISBN quantity email address).result
        = .ok (b.getPrice.mul (Double.ofInt quantity)) ∧
    (buyBook (pre ++ b :: post) ISBN quantity email address).calls
        = [Call.ship address b.getTitle] ∧
    (buyBook (pre ++ b :: post) ISBN quantity email address).inventory
        = pre ++ { b with kind := .paperBook (intSub stock quantity) } :: post ∧
    (stock - quantity ≤ INT_MAX →
      (buyBook (pre ++ b :: post) ISBN quantity email address).inventory
        = pre ++ { b with kind := .paperBook (stock - quantity) } :: post) ∧
    (stock ≤ INT_MAX → 0 ≤ quantity →
      (buyBook (pre ++ b :: post) ISBN quantity email address).inventory
        = pre ++ { b with kind := .paperBook (stock - quantity) } :: post) := by
  obtain ⟨h1, h2, h3⟩ :=
    buyBook_append_of_no_match pre (b :: post) ISBN quantity email address hpre
  have hinv : (buyBook (b :: post) ISBN quantity email address).inventory
      = { b with kind := .paperBook (intSub stock quantity) } :: post := by
    simp [buyBook, hb, hkind, Book.isForSale, Book.hasStock, Book.reduceStock, hq]
  have hexact : stock - quantity ≤ INT_MAX → intSub stock quantity = stock - quantity := by
    intro hmax
    apply wrapInt_of_isInt
    unfold isInt INT_MIN
    exact ⟨by omega, hmax⟩
  rw [h1, h2, h3, hinv]
  refine ⟨?_, ?_, rfl, ?_, ?_⟩
  · simp [buyBook, hb, hkind, Book.isForSale, Book.hasStock, Book.reduceStock, hq,
      Book.getPrice]
  · simp [buyBook, hb, hkind, Book.isForSale, Book.hasStock, Book.reduceStock, hq,
      Book.getTitle]
  · intro hmax
    rw [hexact hmax]
  · intro hs hq0
    rw [hexact (by omega)]

/-- C1, amended, on the first purchase of `runTest`: two copies of the paper
book "123" leave a stock of `5 - 2`. -/
theorem buyBook_paperBook_in_stock_witness :
    (∀ x ∈ ([] : List Book), x.getISBN ≠ "123") ∧ samplePaperBook.getISBN = "123" ∧
    samplePaperBook.kind = .paperBook 5 ∧ (2 : Int) ≤ 5 ∧ (5 : Int) - 2 ≤ INT_MAX ∧
    (buyBook ([] ++ samplePaperBook :: [sampleEBook, sampleShowcaseBook]) "123" 2
        "customer@mail.com" "123 Main St").result
        = .ok (samplePaperBook.getPrice.mul (Double.ofInt 2)) ∧
    (buyBook ([] ++ samplePaperBook :: [sampleEBook, sampleShowcaseBook]) "123" 2
        "customer@mail.com" "123 Main St").calls
        = [Call.ship "123 Main St" samplePaperBook.getTitle] ∧
    (buyBook ([] ++ samplePaperBook :: [sampleEBook, sampleShowcaseBook]) "123" 2
        "customer@mail.com" "123 Main St").inventory
        = [] ++ { samplePaperBook with kind := .paperBook (5 - 2) }
            :: [sampleEBook, sampleShowcaseBook] :=
  ⟨by simp, rfl, rfl, by decide, by decide,
    (buyBook_paperBook_in_stock [] [sampleEBook, sampleShowcaseBook] samplePaperBook "123" 5 2
      "customer@mail.com" "123 Main St" (by simp) rfl rfl (by decide)).1,
    (buyBook_paperBook_in_stock [] [sampleEBook, sampleShowcaseBook] samplePaperBook "123" 5 2
      "customer@mail.com" "123 Main St" (by simp) rfl rfl (by decide)).2.1,
    (buyBook_paperBook_in_stock [] [sampleEBook, sampleShowcaseBook] samplePaperBook "123" 5 2
      "customer@mail.com" "123 Main St" (by simp) rfl rfl (by decide)).2.2.2.1 (by decide)⟩

/-- C2. If the first book of the inventory with the ISBN asked for is a
`PaperBook` whose stock is below the quantity, `buyBook` throws "Not enough
stock available", the inventory (so that book's stock too) is what it was, and
no collaborator is called. -/
theorem buyBook_paperBook_out_of_stock (pre post : List Book) (b : Book) (ISBN : String)
    (stock quantity : Int) (email address : String)
    (hpre : ∀ x ∈ pre, x.getISBN ≠ ISBN) (hb : b.getISBN = ISBN)
    (hkind : b.kind = .paperBook stock) (hq : quantity > stock) :
    (buyBook (pre ++ b :: post) ISBN quantity email address).result
        = .error InsufficientStock ∧
    (buyBook (pre ++ b :: post) ISBN quantity email address).inventory = pre ++ b :: post ∧
    (buyBook (pre ++ b :: post) ISBN quantity email address).inventory[pre.length]?.bind
        Book.stock? = some stock ∧
    (buyBook (pre ++ b :: post) ISBN quantity email address).calls = [] := by
  obtain ⟨h1, h2, h3⟩ :=
    buyBook_append_of_no_match pre (b :: post) ISBN quantity email address hpre
  have hlt : ¬ quantity ≤ stock := by omega
  have hinv : (buyBook (b :: post) ISBN quantity email address).inventory = b :: post := by
    simp [buyBook, hb, hkind, Book.isForSale, Book.hasStock, hlt]
  rw [h1, h2, h3, hinv]
  refine ⟨?_, rfl, ?_, ?_⟩
  · simp [buyBook, hb, hkind, Book.isForSale, Book.hasStock, hlt]
  · have hget : (pre ++ b :: post)[pre.length]? = some b := by
      rw [List.getElem?_append_right (le_refl _)]
      simp
    rw [hget]
    simp [Book.stock?, hkind]
  · simp [buyBook, hb, hkind, Book.isForSale, Book.hasStock, hlt]

/-- C2 on the sample inventory: six copies of the paper book "123", five in stock. -/
theorem buyBook_paperBook_out_of_stock_witness :
    (∀ x ∈ ([] : List Book), x.getISBN ≠ "123") ∧ samplePaperBook.getISBN = "123" ∧
    samplePaperBook.kind = .paperBook 5 ∧ (6 : Int) > 5 ∧
    (buyBook ([] ++ samplePaperBook :: [sampleEBook, sampleShowcaseBook]) "123" 6
        "customer@mail.com" "123 Main St").result = .error InsufficientStock ∧
    (buyBook ([] ++ samplePaperBook :: [sampleEBook, sampleShowcaseBook]) "123" 6
        "customer@mail.com" "123 Main St").inventory
        = [] ++ samplePaperBook :: [sampleEBook, sampleShowcaseBook] ∧
    (buyBook ([] ++ samplePaperBook :: [sampleEBook, sampleShowcaseBook]) "123" 6
        "customer@mail.com" "123 Main St").inventory[([] : List Book).length]?.bind
        Book.stock? = some 5 ∧
    (buyBook ([] ++ samplePaperBook :: [sampleEBook, sampleShowcaseBook]) "123" 6
        "customer@mail.com" "123 Main St").calls = [] :=
  ⟨by simp, rfl, rfl, by decide,
    buyBook_paperBook_out_of_stock [] [sampleEBook, sampleShowcaseBook] samplePaperBook "123" 5 6
      "customer@mail.com" "123 Main St" (by simp) rfl rfl (by decide)⟩

/-- C3. If the first book of the inventory with the ISBN asked for is an
`EBook`, then for every quantity `buyBook` returns `price * quantity`, calls
`MailService::sendEmail` once, with the email and the book's title, calls
`ShippingService::ship` never, and leaves the inventory as it was. -/
theorem buyBook_eBook (pre post : List Book) (b : Book) (ISBN fileType : String)
    (quantity : Int) (email address : String)
    (hpre : ∀ x ∈ pre, x.getISBN ≠ ISBN) (hb : b.getISBN = ISBN)
    (hkind : b.kind = .eBook fileType) :
    (buyBook (pre ++ b :: post) ISBN quantity email address).result
        = .ok (b.getPrice.mul (Double.ofInt quantity)) ∧
    (buyBook (pre ++ b :: post) ISBN quantity email address).calls
        = [Call.sendEmail email b.getTitle] ∧
    (buyBook (pre ++ b :: post) ISBN quantity email address).inventory = pre ++ b :: post := by
  obtain ⟨h1, h2, h3⟩ :=
    buyBook_append_of_no_match pre (b :: post) ISBN quantity email address hpre
  rw [h1, h2, h3]
  refine ⟨?_, ?_, ?_⟩ <;> simp [buyBook, hb, hkind, Book.isForSale]

/-- C3 on the second purchase of `runTest`: the e-book "456", behind the paper book. -/
theorem buyBook_eBook_witness :
    (∀ x ∈ [samplePaperBook], x.getISBN ≠ "456") ∧ sampleEBook.getISBN = "456" ∧
    sampleEBook.kind = .eBook ".pdf" ∧
    (buyBook ([samplePaperBook] ++ sampleEBook :: [sampleShowcaseBook]) "456" 1
        "customer@mail.com" "").result = .ok (sampleEBook.getPrice.mul (Double.ofInt 1)) ∧
    (buyBook ([samplePaperBook] ++ sampleEBook :: [sampleShowcaseBook]) "456" 1
        "customer@mail.com" "").calls
        = [Call.sendEmail "customer@mail.com" sampleEBook.getTitle] ∧
    (buyBook ([samplePaperBook] ++ sampleEBook :: [sampleShowcaseBook]) "456" 1
        "customer@mail.com" "").inventory
        = [samplePaperBook] ++ sampleEBook :: [sampleShowcaseBook] :=
  ⟨by decide, rfl, rfl,
    buyBook_eBook [samplePaperBook] [sampleShowcaseBook] sampleEBook "456" ".pdf" 1
      "customer@mail.com" "" (by decide) rfl rfl⟩

/-- C4. If the first book of the inventory with the ISBN asked for is a
`ShowcaseBook`, then for every quantity `buyBook` throws "This book is not for
sale", calls no collaborator and leaves the inventory as it was. -/
theorem buyBook_showcaseBook (pre post : List Book) (b : Book) (ISBN : String)
    (quantity : Int) (email address : String)
    (hpre : ∀ x ∈ pre, x.getISBN ≠ ISBN) (hb : b.getISBN = ISBN)
    (hkind : b.kind = .showcaseBook) :
    (buyBook (pre ++ b :: post) ISBN quantity email address).result = .error NotForSale ∧
    (buyBook (pre ++ b :: post) ISBN quantity email address).calls = [] ∧
    (buyBook (pre ++ b :: post) ISBN quantity email address).inventory = pre ++ b :: post := by
  obtain ⟨h1, h2, h3⟩ :=
    buyBook_append_of_no_match pre (b :: post) ISBN quantity email address hpre
  rw [h1, h2, h3]
  refine ⟨?_, ?_, ?_⟩ <;> simp [buyBook, hb, hkind, Book.isForSale]

/-- C4 on the sample inventory: a negative number of copies of the showcase book "789". -/
theorem buyBook_showcaseBook_witness :
    (∀ x ∈ [samplePaperBook, sampleEBook], x.getISBN ≠ "789") ∧
    sampleShowcaseBook.getISBN = "789" ∧ sampleShowcaseBook.kind = .showcaseBook ∧
    (buyBook ([samplePaperBook, sampleEBook] ++ sampleShowcaseBook :: []) "789" (-3)
        "customer@mail.com" "Nowhere").result = .error NotForSale ∧
    (buyBook ([samplePaperBook, sampleEBook] ++ sampleShowcaseBook :: []) "789" (-3)
        "customer@mail.com" "Nowhere").calls = [] ∧
    (buyBook ([samplePaperBook, sampleEBook] ++ sampleShowcaseBook :: []) "789" (-3)
        "customer@mail.com" "Nowhere").inventory
        = [samplePaperBook, sampleEBook] ++ sampleShowcaseBook :: [] :=
  ⟨by decide, rfl, rfl,
    buyBook_showcaseBook [samplePaperBook, sampleEBook] [] sampleShowcaseBook "789" (-3)
      "customer@mail.com" "Nowhere" (by decide) rfl rfl⟩

/-- C5. `buyBook` throws "Book with this ISBN not found" exactly when no book
of the inventory has the ISBN asked for; and then the inventory is what it was
and no collaborator is called.  The empty inventory is such a case. -/
theorem buyBook_notFound_iff (inv : List Book) (ISBN : String) (quantity : Int)
    (email address : String) :
    ((buyBook inv ISBN quantity email address).result = .error NotFound
        ↔ ∀ x ∈ inv, x.getISBN ≠ ISBN) ∧
    ((buyBook inv ISBN quantity email address).result = .error NotFound →
      (buyBook inv ISBN quantity email address).inventory = inv ∧
      (buyBook inv ISBN quantity email address).calls = []) ∧
    (buyBook [] ISBN quantity email address).result = .error NotFound := by
  have hiff : (buyBook inv ISBN quantity email address).result = .error NotFound
      ↔ ∀ x ∈ inv, x.getISBN ≠ ISBN := by
    constructor
    · intro hres
      rcases exists_first_match inv ISBN with h | ⟨pre, b, post, hinv, hpre, hb⟩
      · exact h
      · exfalso
        obtain ⟨h1, -, -⟩ :=
          buyBook_append_of_no_match pre (b :: post) ISBN quantity email address hpre
        rw [hinv, h1] at hres
        obtain ⟨d1, d2, d3, -, -, -⟩ := messages_distinct
        rcases buyBook_cons_match b post ISBN quantity email address hb with
          ⟨-, hr, -⟩ | ⟨-, hr, -⟩ | ⟨_, -, hr, -⟩ | ⟨_, -, -, hr, -⟩ | ⟨_, -, -, hr, -⟩
        · rw [hr] at hres; exact d1 (Except.error.inj hres).symm
        · rw [hr] at hres; exact d3 (Except.error.inj hres).symm
        · rw [hr] at hres; cases hres
        · rw [hr] at hres; exact d2 (Except.error.inj hres).symm
        · rw [hr] at hres; cases hres
    · intro h
      exact (buyBook_of_no_match inv ISBN quantity email address h).1
  refine ⟨hiff, fun hres => ?_, rfl⟩
  exact (buyBook_of_no_match inv ISBN quantity email address (hiff.mp hres)).2

/-- C5 on the third purchase of `runTest`: no book has the ISBN "999". -/
theorem buyBook_notFound_iff_witness :
    (∀ x ∈ [samplePaperBook, sampleEBook, sampleShowcaseBook], x.getISBN ≠ "999") ∧
    (buyBook [samplePaperBook, sampleEBook, sampleShowcaseBook] "999" 1
        "customer@mail.com" "Nowhere").result = .error NotFound ∧
    (buyBook [samplePaperBook, sampleEBook, sampleShowcaseBook] "999" 1
        "customer@mail.com" "Nowhere").inventory
        = [samplePaperBook, sampleEBook, sampleShowcaseBook] ∧
    (buyBook [samplePaperBook, sampleEBook, sampleShowcaseBook] "999" 1
        "customer@mail.com" "Nowhere").calls = [] :=
  ⟨by decide,
    (buyBook_notFound_iff [samplePaperBook, sampleEBook, sampleShowcaseBook] "999" 1
      "customer@mail.com" "Nowhere").1.mpr (by decide),
    (buyBook_notFound_iff [samplePaperBook, sampleEBook, sampleShowcaseBook] "999" 1
      "customer@mail.com" "Nowhere").2.1
      ((buyBook_notFound_iff [samplePaperBook, sampleEBook, sampleShowcaseBook] "999" 1
        "customer@mail.com" "Nowhere").1.mpr (by decide))⟩

/-! ## Removal of outdated books -/

/-- C6, as stated, fails: the caller cannot supply the current year.  With the
paper book of 2020 in the store and a maximum age of 3, a caller in 2023
expects the book (of age 3) to stay and nothing to be reported; the program
removes it and reports its title. -/
theorem removeOutdatedBooks_ignores_currentYear :
    specRetained 3 2023 [samplePaperBook] = [samplePaperBook] ∧
    specRemovedTitles 3 2023 [samplePaperBook] = [] ∧
    (removeOutdatedBooks [samplePaperBook] 3).inventory = [] ∧
    (removeOutdatedBooks [samplePaperBook] 3).output = [removalLine "bule elephant "] ∧
    (removeOutdatedBooks [samplePaperBook] 3).inventory ≠ specRetained 3 2023 [samplePaperBook] ∧
    (removeOutdatedBooks [samplePaperBook] 3).output
      ≠ (specRemovedTitles 3 2023 [samplePaperBook]).map removalLine := by
  decide

/-- C6, amended: with the current year fixed to the constant 2025,
`removeOutdatedBooks(maxAge)` keeps exactly the books with `2025 - year <=
maxAge`, unmodified and in their order, and writes one line with the title for
exactly the books with `2025 - year > maxAge`, in their order.  A book with
`2025 - year = maxAge` stays, one with `2025 - year = maxAge + 1` goes.  The
subtraction is the one of `int`; it is the exact difference for every year from
`2025 - INT_MAX` on. -/
theorem removeOutdatedBooks_spec (inv : List Book) (maxAge : Int) :
    (removeOutdatedBooks inv maxAge).inventory = specRetained maxAge 2025 inv ∧
    (removeOutdatedBooks inv maxAge).output
      = (specRemovedTitles maxAge 2025 inv).map removalLine ∧
    List.Sublist (removeOutdatedBooks inv maxAge).inventory inv ∧
    (∀ b, b ∈ (removeOutdatedBooks inv maxAge).inventory ↔ b ∈ inv ∧ ageIn 2025 b ≤ maxAge) ∧
    (∀ b ∈ inv, ageIn 2025 b = maxAge → b ∈ (removeOutdatedBooks inv maxAge).inventory) ∧
    (∀ b ∈ inv, ageIn 2025 b = maxAge + 1 → b ∉ (removeOutdatedBooks inv maxAge).inventory) ∧
    (∀ b : Book, isInt b.getYear → 2025 - INT_MAX ≤ b.getYear → ageIn 2025 b = 2025 - b.getYear) := by
  have hinv : (removeOutdatedBooks inv maxAge).inventory = specRetained maxAge 2025 inv := by
    simp [removeOutdatedBooks, removeOutdatedLoop_eq, CURRENT_YEAR]
  have hmem : ∀ b, b ∈ (removeOutdatedBooks inv maxAge).inventory
      ↔ b ∈ inv ∧ ageIn 2025 b ≤ maxAge := by
    intro b
    rw [hinv]
    simp [specRetained, List.mem_filter]
  refine ⟨hinv, ?_, ?_, hmem, ?_, ?_, ?_⟩
  · simp [removeOutdatedBooks, removeOutdatedLoop_eq, CURRENT_YEAR]
  · rw [hinv]
    exact List.filter_sublist _
  · intro b hb hage
    exact (hmem b).mpr ⟨hb, le_of_eq hage⟩
  · intro b _ hage hmemb
    have := ((hmem b).mp hmemb).2
    omega
  · intro b hy hlo
    unfold ageIn intSub
    apply wrapInt_of_isInt
    unfold isInt INT_MIN INT_MAX at *
    omega

/-- C6, amended, on the sample inventory with a maximum age of 5: the paper
book of 2020 (age 5) stays, the showcase book of 2019 (age 6) goes. -/
theorem removeOutdatedBooks_spec_witness :
    samplePaperBook ∈ [samplePaperBook, sampleEBook, sampleShowcaseBook] ∧
    ageIn 2025 samplePaperBook = 5 ∧
    sampleShowcaseBook ∈ [samplePaperBook, sampleEBook, sampleShowcaseBook] ∧
    ageIn 2025 sampleShowcaseBook = 5 + 1 ∧
    samplePaperBook
      ∈ (removeOutdatedBooks [samplePaperBook, sampleEBook, sampleShowcaseBook] 5).inventory ∧
    sampleShowcaseBook
      ∉ (removeOutdatedBooks [samplePaperBook, sampleEBook, sampleShowcaseBook] 5).inventory :=
  ⟨by decide, by decide, by decide, by decide,
    (removeOutdatedBooks_spec [samplePaperBook, sampleEBook, sampleShowcaseBook] 5).2.2.2.2.1
      samplePaperBook (by decide) (by decide),
    (removeOutdatedBooks_spec [samplePaperBook, sampleEBook, sampleShowcaseBook] 5).2.2.2.2.2.1
      sampleShowcaseBook (by decide) (by decide)⟩

/-- C7. `removeOutdatedBooks` is idempotent: a second call with the same
maximum age leaves the inventory of the first call as it is, and reports no
book. -/
theorem removeOutdatedBooks_idempotent (inv : List Book) (maxAge : Int) :
    (removeOutdatedBooks (removeOutdatedBooks inv maxAge).inventory maxAge).inventory
      = (removeOutdatedBooks inv maxAge).inventory ∧
    (removeOutdatedBooks (removeOutdatedBooks inv maxAge).inventory maxAge).output = [] := by
  simp [removeOutdatedBooks, removeOutdatedLoop_eq, specRetained, specRemovedTitles,
    List.filter_filter]

/-! ## The frame of a purchase -/

/-- C8. Whatever the inventory holds behind it, the first book with the ISBN
asked for decides the result and the calls of `buyBook` (they are those of a
purchase in the store holding that book alone), and the inventory afterwards
differs from the one before at most in that book, and there at most in the
stock: every book before it and after it (later books of the same ISBN
included) is what it was, at the place it had.  Length and order of the
inventory are the same for every call. -/
theorem buyBook_frame (inv : List Book) (ISBN : String) (quantity : Int)
    (email address : String) :
    (∀ pre b post, inv = pre ++ b :: post → (∀ x ∈ pre, x.getISBN ≠ ISBN) → b.getISBN = ISBN →
      (buyBook inv ISBN quantity email address).result
        = (buyBook [b] ISBN quantity email address).result ∧
      (buyBook inv ISBN quantity email address).calls
        = (buyBook [b] ISBN quantity email address).calls ∧
      ∃ b1, (buyBook [b] ISBN quantity email address).inventory = [b1] ∧
        (buyBook inv ISBN quantity email address).inventory = pre ++ b1 :: post ∧
        b1.ISBN = b.ISBN ∧ b1.title = b.title ∧ b1.yearPublished = b.yearPublished ∧
        b1.price = b.price ∧ b1.author = b.author ∧
        (b1 = b ∨ ∃ s, b.kind = .paperBook s ∧ b1.kind = .paperBook (intSub s quantity))) ∧
    ((∀ x ∈ inv, x.getISBN ≠ ISBN) → (buyBook inv ISBN quantity email address).inventory = inv) ∧
    (buyBook inv ISBN quantity email address).inventory.length = inv.length ∧
    (buyBook inv ISBN quantity email address).inventory.map Book.getISBN
      = inv.map Book.getISBN := by
  have hframe : ∀ pre b post, inv = pre ++ b :: post → (∀ x ∈ pre, x.getISBN ≠ ISBN) →
      b.getISBN = ISBN →
      (buyBook inv ISBN quantity email address).result
        = (buyBook [b] ISBN quantity email address).result ∧
      (buyBook inv ISBN quantity email address).calls
        = (buyBook [b] ISBN quantity email address).calls ∧
      ∃ b1, (buyBook [b] ISBN quantity email address).inventory = [b1] ∧
        (buyBook inv ISBN quantity email address).inventory = pre ++ b1 :: post ∧
        b1.ISBN = b.ISBN ∧ b1.title = b.title ∧ b1.yearPublished = b.yearPublished ∧
        b1.price = b.price ∧ b1.author = b.author ∧
        (b1 = b ∨ ∃ s, b.kind = .paperBook s ∧ b1.kind = .paperBook (intSub s quantity)) := by
    intro pre b post hinv hpre hb
    obtain ⟨h1, h2, h3⟩ :=
      buyBook_append_of_no_match pre (b :: post) ISBN quantity email address hpre
    obtain ⟨hr, hc, b1, hi0, hi, hrest⟩ :=
      buyBook_cons_match_post b post ISBN quantity email address hb
    rw [hinv, h1, h2, h3, hr, hc, hi]
    exact ⟨rfl, rfl, b1, hi0, rfl, hrest⟩
  have hnone : (∀ x ∈ inv, x.getISBN ≠ ISBN) →
      (buyBook inv ISBN quantity email address).inventory = inv :=
    fun h => (buyBook_of_no_match inv ISBN quantity email address h).2.1
  refine ⟨hframe, hnone, ?_, ?_⟩
  · rcases exists_first_match inv ISBN with h | ⟨pre, b, post, hinv, hpre, hb⟩
    · rw [hnone h]
    · obtain ⟨-, -, b1, -, hi, -⟩ := hframe pre b post hinv hpre hb
      rw [hi, hinv]
      simp
  · rcases exists_first_match inv ISBN with h | ⟨pre, b, post, hinv, hpre, hb⟩
    · rw [hnone h]
    · obtain ⟨-, -, b1, -, hi, hI, -⟩ := hframe pre b post hinv hpre hb
      rw [hi, hinv]
      simp [Book.getISBN, hI]

/-- C8 on an inventory with two paper books of the ISBN "123": the purchase of
two copies is decided by the first, whose stock goes from 5 to 3; the second,
with one copy, is untouched. -/
theorem buyBook_frame_witness :
    [samplePaperBook, sampleEBook, sampleDuplicate]
      = [] ++ samplePaperBook :: [sampleEBook, sampleDuplicate] ∧
    (∀ x ∈ ([] : List Book), x.getISBN ≠ "123") ∧ samplePaperBook.getISBN = "123" ∧
    (buyBook [samplePaperBook, sampleEBook, sampleDuplicate] "123" 2 "customer@mail.com"
        "123 Main St").result
      = (buyBook [samplePaperBook] "123" 2 "customer@mail.com" "123 Main St").result ∧
    (buyBook [samplePaperBook, sampleEBook, sampleDuplicate] "123" 2 "customer@mail.com"
        "123 Main St").calls
      = (buyBook [samplePaperBook] "123" 2 "customer@mail.com" "123 Main St").calls ∧
    ∃ b1, (buyBook [samplePaperBook] "123" 2 "customer@mail.com" "123 Main St").inventory
        = [b1] ∧
      (buyBook [samplePaperBook, sampleEBook, sampleDuplicate] "123" 2 "customer@mail.com"
        "123 Main St").inventory = [] ++ b1 :: [sampleEBook, sampleDuplicate] ∧
      b1.ISBN = samplePaperBook.ISBN ∧ b1.title = samplePaperBook.title ∧
      b1.yearPublished = samplePaperBook.yearPublished ∧
      b1.price = samplePaperBook.price ∧ b1.author = samplePaperBook.author ∧
      (b1 = samplePaperBook ∨
        ∃ s, samplePaperBook.kind = .paperBook s ∧ b1.kind = .paperBook (intSub s 2)) :=
  ⟨rfl, by simp, rfl,
    (buyBook_frame [samplePaperBook, sampleEBook, sampleDuplicate] "123" 2 "customer@mail.com"
      "123 Main St").1 [] samplePaperBook [sampleEBook, sampleDuplicate] rfl (by simp) rfl⟩

/-! ## Quantities that are not positive -/

/-- C9, as stated, fails.  A paper book may hold a negative stock, and then a
purchase of zero copies (a quantity `<= 0` at a sellable book) does not succeed:
`hasStock(0)` is `-5 >= 0`, and `buyBook` throws "Not enough stock available".
And a price may compare `>= 0` without being finite: zero copies of an e-book
of infinite price are charged NaN, which does not compare `<= 0`. -/
theorem buyBook_nonpositive_quantity_fails :
    (negativeStockBook.kind = .paperBook (-5) ∧ negativeStockBook.isForSale = true ∧
      (0 : Int) ≤ 0 ∧
      (buyBook [negativeStockBook] "123" 0 "customer@mail.com" "123 Main St").result
        = .error InsufficientStock ∧
      (buyBook [negativeStockBook] "123" 0 "customer@mail.com" "123 Main St").result
        ≠ .ok (negativeStockBook.getPrice.mul (Double.ofInt 0))) ∧
    (infinitePriceEBook.kind = .eBook ".pdf" ∧ infinitePriceEBook.getPrice.isNonNeg = true ∧
      (buyBook [infinitePriceEBook] "456" 0 "customer@mail.com" "").result = .ok .nan ∧
      Double.nan.isNonPos = false) := by
  refine ⟨⟨rfl, rfl, le_refl _, ?_, ?_⟩, rfl, rfl, ?_, rfl⟩
  · simp [buyBook, negativeStockBook, Book.getISBN, Book.isForSale, Book.hasStock]
  · simp [buyBook, negativeStockBook, Book.getISBN, Book.isForSale, Book.hasStock]
  · simp [buyBook, infinitePriceEBook, Book.getISBN, Book.isForSale, Book.getPrice,
      Double.ofInt, Double.mul]

/-- C9, amended: the quantity is not checked for positivity.  If the first book
with the ISBN asked for is an `EBook`, or a `PaperBook` whose stock is at least
the quantity (so every `PaperBook` of non-negative stock), then for every
quantity `<= 0` `buyBook` returns `price * quantity`; and that amount compares
`<= 0` when the price is finite and compares `>= 0`. -/
theorem buyBook_nonpositive_quantity (pre post : List Book) (b : Book) (ISBN : String)
    (quantity : Int) (email address : String)
    (hpre : ∀ x ∈ pre, x.getISBN ≠ ISBN) (hb : b.getISBN = ISBN)
    (hkind : (∃ fileType, b.kind = .eBook fileType) ∨
      (∃ stock, b.kind = .paperBook stock ∧ (quantity ≤ stock ∨ 0 ≤ stock)))
    (hq : quantity ≤ 0) :
    (buyBook (pre ++ b :: post) ISBN quantity email address).result
      = .ok (b.getPrice.mul (Double.ofInt quantity)) ∧
    (b.getPrice.isFinite = true → b.getPrice.isNonNeg = true →
      (b.getPrice.mul (Double.ofInt quantity)).isNonPos = true) := by
  constructor
  · obtain ⟨h1, -, -⟩ :=
      buyBook_append_of_no_match pre (b :: post) ISBN quantity email address hpre
    rw [h1]
    rcases hkind with ⟨fileType, hk⟩ | ⟨stock, hk, hs⟩
    · simp [buyBook, hb, hk, Book.isForSale]
    · have hle : quantity ≤ stock := by omega
      simp [buyBook, hb, hk, Book.isForSale, Book.hasStock, Book.reduceStock, hle, Book.getPrice]
  · intro hfin hnn
    exact Double.mul_ofInt_isNonPos _ _ hfin hnn hq

/-- C9, amended, on the sample inventory: minus two copies of the paper book
"123", whose price is 35.0 and whose stock is 5. -/
theorem buyBook_nonpositive_quantity_witness :
    (∀ x ∈ ([] : List Book), x.getISBN ≠ "123") ∧ samplePaperBook.getISBN = "123" ∧
    ((∃ fileType, samplePaperBook.kind = .eBook fileType) ∨
      (∃ stock, samplePaperBook.kind = .paperBook stock ∧ ((-2 : Int) ≤ stock ∨ 0 ≤ stock))) ∧
    (-2 : Int) ≤ 0 ∧
    samplePaperBook.getPrice.isFinite = true ∧ samplePaperBook.getPrice.isNonNeg = true ∧
    (buyBook ([] ++ samplePaperBook :: [sampleEBook, sampleShowcaseBook]) "123" (-2)
        "customer@mail.com" "123 Main St").result
      = .ok (samplePaperBook.getPrice.mul (Double.ofInt (-2))) ∧
    (samplePaperBook.getPrice.mul (Double.ofInt (-2))).isNonPos = true :=
  ⟨by simp, rfl, Or.inr ⟨5, rfl, Or.inl (by decide)⟩, by decide, rfl, rfl,
    (buyBook_nonpositive_quantity [] [sampleEBook, sampleShowcaseBook] samplePaperBook "123" (-2)
      "customer@mail.com" "123 Main St" (by simp) rfl
      (Or.inr ⟨5, rfl, Or.inl (by decide)⟩) (by decide)).1,
    (buyBook_nonpositive_quantity [] [sampleEBook, sampleShowcaseBook] samplePaperBook "123" (-2)
      "customer@mail.com" "123 Main St" (by simp) rfl
      (Or.inr ⟨5, rfl, Or.inl (by decide)⟩) (by decide)).2 rfl rfl⟩

/-! ## The defensive branch -/

/-- An object of the base class `Book` is for sale and is neither a `PaperBook`
nor an `EBook`: its purchase throws "Invalid book type". -/
theorem buyBook_plainBook :
    (buyBook [plainBook] "000" 1 "customer@mail.com" "Nowhere").result
      = .error InvalidBookType := by
  simp [buyBook, plainBook, Book.getISBN, Book.isForSale]

/-- C10. In a store that holds only objects of the three derived classes
(`PaperBook`, `EBook`, `ShowcaseBook`), `buyBook` never throws "Invalid book
type": every exception is "Book with this ISBN not found", "This book is not
for sale" or "Not enough stock available". -/
theorem buyBook_never_invalidBookType (inv : List Book) (ISBN : String) (quantity : Int)
    (email address : String) (hclosed : ∀ x ∈ inv, x.kind ≠ .book) :
    (buyBook inv ISBN quantity email address).result ≠ .error InvalidBookType ∧
    ∀ msg, (buyBook inv ISBN quantity email address).result = .error msg →
      msg = NotFound ∨ msg = NotForSale ∨ msg = InsufficientStock := by
  have hmsg : ∀ msg, (buyBook inv ISBN quantity email address).result = .error msg →
      msg = NotFound ∨ msg = NotForSale ∨ msg = InsufficientStock := by
    intro msg hres
    rcases exists_first_match inv ISBN with h | ⟨pre, b, post, hinv, hpre, hb⟩
    · rw [(buyBook_of_no_match inv ISBN quantity email address h).1] at hres
      exact Or.inl (Except.error.inj hres).symm
    · obtain ⟨h1, -, -⟩ :=
        buyBook_append_of_no_match pre (b :: post) ISBN quantity email address hpre
      rw [hinv, h1] at hres
      have hbk : b.kind ≠ .book := hclosed b (by rw [hinv]; simp)
      rcases buyBook_cons_match b post ISBN quantity email address hb with
        ⟨-, hr, -⟩ | ⟨hk, -⟩ | ⟨_, -, hr, -⟩ | ⟨_, -, -, hr, -⟩ | ⟨_, -, -, hr, -⟩
      · rw [hr] at hres; exact Or.inr (Or.inl (Except.error.inj hres).symm)
      · exact absurd hk hbk
      · rw [hr] at hres; cases hres
      · rw [hr] at hres; exact Or.inr (Or.inr (Except.error.inj hres).symm)
      · rw [hr] at hres; cases hres
  refine ⟨fun hres => ?_, hmsg⟩
  obtain ⟨-, -, d3, -, d5, d6⟩ := messages_distinct
  rcases hmsg _ hres with h | h | h
  · exact d3 h.symm
  · exact d5 h.symm
  · exact d6 h.symm

/-- C10 on the sample inventory: the purchase of the showcase book "789". -/
theorem buyBook_never_invalidBookType_witness :
    (∀ x ∈ [samplePaperBook, sampleEBook, sampleShowcaseBook], x.kind ≠ .book) ∧
    (buyBook [samplePaperBook, sampleEBook, sampleShowcaseBook] "789" 1 "customer@mail.com"
        "Nowhere").result ≠ .error InvalidBookType ∧
    ∀ msg, (buyBook [samplePaperBook, sampleEBook, sampleShowcaseBook] "789" 1
        "customer@mail.com" "Nowhere").result = .error msg →
      msg = NotFound ∨ msg = NotForSale ∨ msg = InsufficientStock :=
  ⟨by decide,
    buyBook_never_invalidBookType [samplePaperBook, sampleEBook, sampleShowcaseBook] "789" 1
      "customer@mail.com" "Nowhere" (by decide)⟩

/-! ## The stock invariant under the operations of the store -/

/-- C11, as stated, fails.  In the sample inventory every stock is `>= 0`.  The
purchase of `INT_MIN` copies of the paper book "123" (stock 5) passes
`hasStock` (`5 >= -2147483648`), returns, and `stock -= quantity` leaves the
`int` that `5 + 2147483648` wraps to: the stock is `-2147483643`. -/
theorem buyBook_stock_overflow :
    StockNonneg [samplePaperBook, sampleEBook, sampleShowcaseBook] ∧
    isInt (-2147483648) ∧
    (buyBook [samplePaperBook, sampleEBook, sampleShowcaseBook] "123" (-2147483648)
        "customer@mail.com" "123 Main St").result
      = .ok (samplePaperBook.getPrice.mul (Double.ofInt (-2147483648))) ∧
    (buyBook [samplePaperBook, sampleEBook, sampleShowcaseBook] "123" (-2147483648)
        "customer@mail.com" "123 Main St").inventory
      = [{ samplePaperBook with kind := .paperBook (-2147483643) }, sampleEBook,
          sampleShowcaseBook] ∧
    ¬ StockNonneg (buyBook [samplePaperBook, sampleEBook, sampleShowcaseBook] "123"
        (-2147483648) "customer@mail.com" "123 Main St").inventory := by
  refine ⟨by decide, by decide, rfl, by decide, by decide⟩

/-- C11, amended.  From an inventory in which every `PaperBook` has a stock
`>= 0`, so has the inventory after `addBook` of a book that is not a
`PaperBook` of negative stock, after `removeOutdatedBooks`, after a `buyBook`
that throws, and after a `buyBook` of any quantity for which the difference
`stock - quantity` at the first book of the ISBN asked for, if that is a
`PaperBook`, does not exceed `INT_MAX`: so for every quantity `>= 0` on `int`
stocks.  A purchase returns at a `PaperBook` only with `quantity <= stock`.
Where the difference does exceed `INT_MAX`, the stock is negative afterwards. -/
theorem stockNonneg_preserved (inv : List Book) (hinv : StockNonneg inv) :
    (∀ book : Book, book.stockNonneg = true → StockNonneg (addBook inv book)) ∧
    (∀ maxAge, StockNonneg (removeOutdatedBooks inv maxAge).inventory) ∧
    (∀ ISBN quantity email address,
      (∀ amount, (buyBook inv ISBN quantity email address).result ≠ .ok amount) →
      (buyBook inv ISBN quantity email address).inventory = inv ∧
      StockNonneg (buyBook inv ISBN quantity email address).inventory) ∧
    (∀ ISBN quantity email address,
      (∀ pre b post stock, inv = pre ++ b :: post → (∀ x ∈ pre, x.getISBN ≠ ISBN) →
        b.getISBN = ISBN → b.kind = .paperBook stock → stock - quantity ≤ INT_MAX) →
      StockNonneg (buyBook inv ISBN quantity email address).inventory) ∧
    (∀ ISBN quantity email address,
      (∀ b ∈ inv, ∀ stock, b.kind = .paperBook stock → stock ≤ INT_MAX) → 0 ≤ quantity →
      StockNonneg (buyBook inv ISBN quantity email address).inventory) ∧
    (∀ ISBN quantity email address pre b post stock amount, inv = pre ++ b :: post →
      (∀ x ∈ pre, x.getISBN ≠ ISBN) → b.getISBN = ISBN → b.kind = .paperBook stock →
      (buyBook inv ISBN quantity email address).result = .ok amount → quantity ≤ stock) ∧
    (∀ ISBN quantity email address pre b post stock, inv = pre ++ b :: post →
      (∀ x ∈ pre, x.getISBN ≠ ISBN) → b.getISBN = ISBN → b.kind = .paperBook stock →
      isInt stock → isInt quantity → quantity ≤ stock → INT_MAX < stock - quantity →
      ¬ StockNonneg (buyBook inv ISBN quantity email address).inventory) := by
  have hbuy : ∀ ISBN quantity email address,
      (∀ pre b post stock, inv = pre ++ b :: post → (∀ x ∈ pre, x.getISBN ≠ ISBN) →
        b.getISBN = ISBN → b.kind = .paperBook stock → stock - quantity ≤ INT_MAX) →
      StockNonneg (buyBook inv ISBN quantity email address).inventory := by
    intro ISBN quantity email address hmax
    rcases buyBook_inventory_cases inv ISBN quantity email address with
      h | ⟨pre, b, post, stock, hsplit, hpre, hb, hk, hq, -, hi⟩
    · rw [h]; exact hinv
    · rw [hi]
      intro x hx
      rcases List.mem_append.mp hx with hx | hx
      · exact hinv x (by rw [hsplit]; exact List.mem_append_left _ hx)
      · rcases List.mem_cons.mp hx with rfl | hx
        · have := intSub_nonneg stock quantity hq (hmax pre b post stock hsplit hpre hb hk)
          simp [Book.stockNonneg, this]
        · exact hinv x (by rw [hsplit]; exact List.mem_append_right _ (List.mem_cons_of_mem _ hx))
  refine ⟨?_, ?_, ?_, hbuy, ?_, ?_, ?_⟩
  · intro book hbook x hx
    rcases List.mem_append.mp hx with hx | hx
    · exact hinv x hx
    · rw [List.mem_singleton.mp hx]; exact hbook
  · intro maxAge x hx
    have hsub : (removeOutdatedBooks inv maxAge).inventory = specRetained maxAge CURRENT_YEAR inv := by
      simp [removeOutdatedBooks, removeOutdatedLoop_eq]
    rw [hsub] at hx
    exact hinv x (List.mem_of_mem_filter hx)
  · intro ISBN quantity email address hfail
    rcases buyBook_inventory_cases inv ISBN quantity email address with
      h | ⟨_, _, _, _, -, -, -, -, -, hr, -⟩
    · exact ⟨h, by rw [h]; exact hinv⟩
    · exact absurd hr (hfail _)
  · intro ISBN quantity email address hstock hq0
    apply hbuy
    intro pre b post stock hsplit _ _ hk
    have := hstock b (by rw [hsplit]; simp) stock hk
    omega
  · intro ISBN quantity email address pre b post stock amount hsplit hpre hb hk hres
    obtain ⟨h1, -, -⟩ :=
      buyBook_append_of_no_match pre (b :: post) ISBN quantity email address hpre
    rw [hsplit, h1] at hres
    rcases buyBook_cons_match b post ISBN quantity email address hb with
      ⟨hk1, -⟩ | ⟨hk1, -⟩ | ⟨_, hk1, -⟩ | ⟨_, -, -, hr, -⟩ | ⟨stock1, hk1, hq, -⟩
    · rw [hk] at hk1; cases hk1
    · rw [hk] at hk1; cases hk1
    · rw [hk] at hk1; cases hk1
    · rw [hr] at hres; cases hres
    · rw [hk] at hk1
      cases hk1
      exact hq
  · intro ISBN quantity email address pre b post stock hsplit hpre hb hk hs hqi hq hover hnn
    obtain ⟨-, h2, -⟩ :=
      buyBook_append_of_no_match pre (b :: post) ISBN quantity email address hpre
    have hi : (buyBook (b :: post) ISBN quantity email address).inventory
        = { b with kind := .paperBook (intSub stock quantity) } :: post := by
      simp [buyBook, hb, hk, Book.isForSale, Book.hasStock, Book.reduceStock, hq]
    rw [hsplit, h2, hi] at hnn
    have hb1 := hnn { b with kind := .paperBook (intSub stock quantity) } (by simp)
    have hneg := intSub_neg_of_overflow stock quantity hs hqi hover
    simp [Book.stockNonneg] at hb1
    omega

/-- C11, amended, on the sample inventory: it keeps its stocks `>= 0` when
the second paper book is added, when the books older than 4 years are removed,
when two copies of "123" are bought, when minus two copies of "123" are bought
(the stock becomes 7), and when the purchase of six copies fails. -/
theorem stockNonneg_preserved_witness :
    StockNonneg [samplePaperBook, sampleEBook, sampleShowcaseBook] ∧
    sampleDuplicate.stockNonneg = true ∧
    StockNonneg (addBook [samplePaperBook, sampleEBook, sampleShowcaseBook] sampleDuplicate) ∧
    StockNonneg (removeOutdatedBooks [samplePaperBook, sampleEBook, sampleShowcaseBook]
      4).inventory ∧
    (0 : Int) ≤ 2 ∧
    StockNonneg (buyBook [samplePaperBook, sampleEBook, sampleShowcaseBook] "123" 2
      "customer@mail.com" "123 Main St").inventory ∧
    StockNonneg (buyBook [samplePaperBook, sampleEBook, sampleShowcaseBook] "123" (-2)
      "customer@mail.com" "123 Main St").inventory ∧
    StockNonneg (buyBook [samplePaperBook, sampleEBook, sampleShowcaseBook] "123" 6
      "customer@mail.com" "123 Main St").inventory :=
  ⟨by decide, by decide,
    (stockNonneg_preserved [samplePaperBook, sampleEBook, sampleShowcaseBook] (by decide)).1
      sampleDuplicate (by decide),
    (stockNonneg_preserved [samplePaperBook, sampleEBook, sampleShowcaseBook] (by decide)).2.1 4,
    by decide,
    (stockNonneg_preserved [samplePaperBook, sampleEBook, sampleShowcaseBook]
      (by decide)).2.2.2.2.1 "123" 2 "customer@mail.com" "123 Main St"
      (by
        intro b hb stock hk
        simp only [List.mem_cons, List.mem_singleton, List.not_mem_nil, or_false] at hb
        rcases hb with rfl | rfl | rfl
        · simp [samplePaperBook] at hk
          subst hk
          decide
        · simp [sampleEBook] at hk
        · simp [sampleShowcaseBook] at hk)
      (by decide),
    (stockNonneg_preserved [samplePaperBook, sampleEBook, sampleShowcaseBook]
      (by decide)).2.2.2.1 "123" (-2) "customer@mail.com" "123 Main St"
      (by
        intro pre b post stock hsplit _ _ hk
        have hb : b ∈ [samplePaperBook, sampleEBook, sampleShowcaseBook] := by
          rw [hsplit]; simp
        simp only [List.mem_cons, List.mem_singleton, List.not_mem_nil, or_false] at hb
        rcases hb with rfl | rfl | rfl
        · simp [samplePaperBook] at hk
          subst hk
          decide
        · simp [sampleEBook] at hk
        · simp [sampleShowcaseBook] at hk),
    ((stockNonneg_preserved [samplePaperBook, sampleEBook, sampleShowcaseBook]
      (by decide)).2.2.1 "123" 6 "customer@mail.com" "123 Main St"
      (by
        intro amount hres
        simp [buyBook, samplePaperBook, Book.getISBN, Book.isForSale, Book.hasStock] at hres)).2⟩

end QuantumBookStore
